import Mathlib

/-!
Verification development for the date-fruit vision pipeline
(`src/preprocessing/detection.py`, `src/inference/predictor.py`, `src/api.py`).

The pure computations of the pipeline (thresholding, morphology, cropping,
filtering, the prediction loop, the model-loading state machine, softmax
post-processing over an abstract positive exponential) are embedded as
executable Lean definitions.  External library primitives whose numerics are
not part of this repository (JPEG decoding, BGR to HSV conversion, Gaussian
blur, contour tracing, bilinear resizing) are abstracted as parameters of a
`VisionOps` record; every theorem quantifies over them.
-/

namespace CSQA

/-- One BGR pixel as stored by the decoder (`cv2.imdecode(..., IMREAD_COLOR)`):
channel 0 is blue, channel 1 green, channel 2 red. -/
structure Pix where
  b : Nat
  g : Nat
  r : Nat
deriving DecidableEq, Repr

/-- A decoded colour image: a height by width matrix of BGR pixels. -/
structure Image where
  height : Nat
  width : Nat
  pix : Nat → Nat → Pix

/-- A single-channel (grayscale / mask) image. -/
structure Gray where
  height : Nat
  width : Nat
  pix : Nat → Nat → Nat

/-- An external contour as returned by `cv2.findContours`: we keep the data the
pipeline consumes, namely its bounding rectangle (`cv2.boundingRect`) and its
area (`cv2.contourArea`). -/
structure Contour where
  x : Nat
  y : Nat
  w : Nat
  h : Nat
  area : ℚ
deriving DecidableEq, Repr

-- Constants of src/preprocessing/detection.py
def MIN_OBJECT_AREA : Nat := 3000
def ZOOMED_IN_THRESHOLD : ℚ := 0.50
def CROP_PADDING : Nat := 10
def MORPH_KERNEL : Nat × Nat := (7, 7)
def DARK_CROP_THRESHOLD : ℚ := 20

/-- All pixels of an image in row-major order. -/
def imagePixels (image : Image) : List Pix :=
  (List.range image.height).flatMap fun y =>
    (List.range image.width).map fun x => image.pix y x

/-- All values of a single-channel image in row-major order. -/
def grayValues (g : Gray) : List Nat :=
  (List.range g.height).flatMap fun y =>
    (List.range g.width).map fun x => g.pix y x

/-- The value `cv2.mean(crop)[0]`: the mean of channel 0 (the blue channel) of a BGR
image.  `cv2.mean` returns per-channel means; index 0 selects blue. -/
def meanChannel0 (image : Image) : ℚ :=
  (((imagePixels image).map fun p => (p.b : ℚ)).sum) /
    (((imagePixels image).length : ℚ))

/-- Modelled from the spec: the "mean pixel intensity" of a crop, averaging
all three channels of all pixels.  Used only to compare the spec's wording for
the darkness filter with what `_is_too_dark` actually computes. -/
def meanIntensity (image : Image) : ℚ :=
  (((imagePixels image).map fun p => ((p.b + p.g + p.r : Nat) : ℚ)).sum) /
    (3 * ((imagePixels image).length : ℚ))

/-- Python `max` / `np.max` over a list of rationals (0 on an empty list). -/
def maxListQ : List ℚ → ℚ
  | [] => 0
  | x :: xs => xs.foldl max x

/-- NumPy `argmax`: index of the first maximal element. -/
def argmaxIdx : List ℚ → Nat
  | [] => 0
  | [_] => 0
  | x :: xs => if x < maxListQ xs then argmaxIdx xs + 1 else 0

/-- Python's `max(contours, key=cv2.contourArea)`: first contour of maximal
area (later elements replace the current best only when strictly larger). -/
def maxByArea : List Contour → Contour
  | [] => { x := 0, y := 0, w := 0, h := 0, area := 0 }
  | c :: cs => cs.foldl (fun best d => if best.area < d.area then d else best) c

/-- NumPy slice `image[y1:y2, x1:x2]`. -/
def subImage (image : Image) (y1 y2 x1 x2 : Nat) : Image :=
  { height := y2 - y1
    width := x2 - x1
    pix := fun i j => image.pix (y1 + i) (x1 + j) }

/-- The `_padded_crop` helper of detection.py.  The source computes
`y1 = max(0, y - CROP_PADDING)` over Python ints; since `y` comes from
`cv2.boundingRect` it is non-negative, and truncated `Nat` subtraction gives
exactly that value. -/
def padded_crop (image : Image) (x y w h : Nat) : Image :=
  let h_img := image.height
  let w_img := image.width
  let y1 := y - CROP_PADDING
  let y2 := min h_img (y + h + CROP_PADDING)
  let x1 := x - CROP_PADDING
  let x2 := min w_img (x + w + CROP_PADDING)
  subImage image y1 y2 x1 x2

/-- The `_is_too_dark` helper of detection.py: `cv2.mean(crop)[0] < DARK_CROP_THRESHOLD`,
i.e. the mean of the first (blue) channel is below the threshold. -/
def is_too_dark (crop : Image) : Bool :=
  meanChannel0 crop < DARK_CROP_THRESHOLD

/-- The in-bounds positions of the `(2r+1) x (2r+1)` neighbourhood of `(y, x)`
in an `h x w` grid (structuring element `np.ones((2r+1, 2r+1))`, anchored at
its centre; out-of-bounds positions are ignored, matching OpenCV's neutral
border handling for erosion and dilation). -/
def neighborhood (r h w y x : Nat) : List (Nat × Nat) :=
  (List.range (2 * r + 1)).flatMap fun dy =>
    (List.range (2 * r + 1)).filterMap fun dx =>
      let yy : Int := (y : Int) + (dy : Int) - (r : Int)
      let xx : Int := (x : Int) + (dx : Int) - (r : Int)
      if 0 ≤ yy ∧ yy < (h : Int) ∧ 0 ≤ xx ∧ xx < (w : Int) then
        some (yy.toNat, xx.toNat)
      else none

/-- Dilation `cv2.dilate` with an all-ones square kernel of radius `r`: each output
value is the maximum over the in-bounds neighbourhood. -/
def dilate (g : Gray) (r : Nat) : Gray :=
  { height := g.height
    width := g.width
    pix := fun y x =>
      ((neighborhood r g.height g.width y x).map fun p => g.pix p.1 p.2).foldl
        max 0 }

/-- Erosion `cv2.erode` with an all-ones square kernel of radius `r`: each output value
is the minimum over the in-bounds neighbourhood (255 is the neutral element for
8-bit masks). -/
def erode (g : Gray) (r : Nat) : Gray :=
  { height := g.height
    width := g.width
    pix := fun y x =>
      ((neighborhood r g.height g.width y x).map fun p => g.pix p.1 p.2).foldl
        min 255 }

def dilateN (g : Gray) (r n : Nat) : Gray := (fun m => dilate m r)^[n] g

def erodeN (g : Gray) (r n : Nat) : Gray := (fun m => erode m r)^[n] g

/-- Morphological closing: per OpenCV, `MORPH_CLOSE` with `iterations = n`
applies `n` dilations followed by `n` erosions. -/
def closing (g : Gray) (r n : Nat) : Gray := erodeN (dilateN g r n) r n

/-- Morphological opening: `n` erosions followed by `n` dilations. -/
def opening (g : Gray) (r n : Nat) : Gray := dilateN (erodeN g r n) r n

inductive MorphOp where
  | MORPH_CLOSE
  | MORPH_OPEN
deriving DecidableEq, Repr

/-- The operation `cv2.morphologyEx` restricted to the two operations the pipeline uses. -/
def morphologyEx (op : MorphOp) (g : Gray) (r iterations : Nat) : Gray :=
  match op with
  | .MORPH_CLOSE => closing g r iterations
  | .MORPH_OPEN => opening g r iterations

/-- Radius of a square structuring element: `np.ones((7,7))` anchored at its
centre has radius `(7 - 1) / 2 = 3`. -/
def kernelRadius (k : Nat × Nat) : Nat := (k.1 - 1) / 2

/-- The inter-class (between-class) variance of the value list `vs` split at
threshold `t` (values `≤ t` against values `> t`):
`w0 * w1 * (mu0 - mu1)^2`, the quantity Otsu's method maximises. -/
def interClassVariance (vs : List Nat) (t : Nat) : ℚ :=
  let lo := vs.filter fun v => v ≤ t
  let hi := vs.filter fun v => ¬ v ≤ t
  let w0 : ℚ := (lo.length : ℚ)
  let w1 : ℚ := (hi.length : ℚ)
  let mu0 : ℚ := ((lo.sum : Nat) : ℚ) / w0
  let mu1 : ℚ := ((hi.sum : Nat) : ℚ) / w1
  w0 * w1 * (mu0 - mu1) ^ 2

/-- The automatic threshold of `cv2.threshold(..., THRESH_OTSU)`: the cut point in
`[0, 255]` maximising the inter-class variance (first maximum wins, matching
OpenCV's scan that replaces the best only on strict improvement). -/
def otsuThreshold (vs : List Nat) : Nat :=
  (List.range 256).foldl
    (fun best t =>
      if interClassVariance vs best < interClassVariance vs t then t else best)
    0

/-- Binarisation `cv2.threshold(..., maxval = 255, THRESH_BINARY)`: values strictly above
the threshold map to 255, the rest to 0. -/
def thresholdBinary (g : Gray) (t : Nat) : Gray :=
  { height := g.height
    width := g.width
    pix := fun y x => if t < g.pix y x then 255 else 0 }

/-- The external OpenCV/TensorFlow primitives the pipeline calls but whose
numerics live outside this repository: image decoding, the HSV saturation
channel, Gaussian blur, contour tracing and bilinear resizing.  Every theorem
below quantifies over an arbitrary implementation of this record. -/
structure VisionOps where
  imdecode : List Nat → Option Image
  saturationChannel : Image → Gray
  gaussianBlur5 : Gray → Gray
  findContours : Gray → List Contour
  resize224 : Image → Image

/-- The `_create_foreground_mask` segmenter of detection.py: saturation channel, 5x5
Gaussian blur, Otsu binarisation, then `MORPH_CLOSE` (2 iterations) followed by
`MORPH_OPEN` (1 iteration) with a 7x7 all-ones kernel. -/
def create_foreground_mask (ops : VisionOps) (image : Image) : Gray :=
  let s_channel := ops.saturationChannel image
  let blurred := ops.gaussianBlur5 s_channel
  let mask := thresholdBinary blurred (otsuThreshold (grayValues blurred))
  let r := kernelRadius MORPH_KERNEL
  let mask := morphologyEx .MORPH_CLOSE mask r 2
  let mask := morphologyEx .MORPH_OPEN mask r 1
  mask

/-- The `detect_and_crop` entrypoint of detection.py: decode, segment, classify the scene by
the coverage of the largest contour, then either return the single padded crop
of the largest contour (zoomed-in scene) or filter the contours by bounding-box
area and crop darkness (conveyor-belt scene).  The `for`/`continue` loop of the
source is the order-preserving `filterMap`. -/
def detect_and_crop (ops : VisionOps) (image_bytes : List Nat) : List Image :=
  match ops.imdecode image_bytes with
  | none => []
  | some image =>
    let mask := create_foreground_mask ops image
    match ops.findContours mask with
    | [] => []
    | c :: cs =>
      let contours := c :: cs
      let largest := maxByArea contours
      let coverage := largest.area / (((image.height : ℚ)) * ((image.width : ℚ)))
      if coverage > ZOOMED_IN_THRESHOLD then
        [padded_crop image largest.x largest.y largest.w largest.h]
      else
        contours.filterMap fun contour =>
          if contour.w * contour.h < MIN_OBJECT_AREA then none
          else
            let crop := padded_crop image contour.x contour.y contour.w contour.h
            if is_too_dark crop then none
            else some crop

-- ===== src/api.py =====

/-- The two configured class labels of api.py. -/
def CLASSES : List String := ["Fresh", "Dry"]

/-- One entry of the endpoint's result list. -/
structure SinglePrediction where
  predicted_class : String
  confidence : ℚ
deriving DecidableEq, Repr

/-- The endpoint's response shape. -/
structure BatchPredictionOut where
  filename : String
  total_dates_found : Nat
  results : List SinglePrediction
deriving DecidableEq, Repr

/-- Failures raised while classifying one crop (a malformed crop/tensor raises
a shape error; anything else is grouped as `otherError`). -/
inductive PredictErr where
  | shapeError
  | otherError
deriving DecidableEq, Repr

/-- Softmax `tf.nn.softmax` over an abstract exponential `e`: the real implementation
uses `e = exp`; every property proved below holds for any strictly positive
`e`, which is the only fact about `exp` the pipeline relies on. -/
def softmax (e : ℚ → ℚ) (l : List ℚ) : List ℚ :=
  let s := (l.map e).sum
  l.map fun x => e x / s

/-- The `preprocess_crop` helper of api.py: resize to 224x224 and prepend a batch axis.
The model consumer below takes the single resized image, so the batch axis
(pure shape bookkeeping with no pixel effect) is implicit. -/
def preprocess_crop (resize224 : Image → Image) (crop : Image) : Image :=
  resize224 crop

/-- The body of the per-crop iteration of `upload_and_predict`:
`preds = model.predict(preprocess_crop(crop))`, `score = tf.nn.softmax(preds[0])`,
`label = CLASSES[np.argmax(score)]`, `confidence = float(100 * np.max(score))`.
`modelPredict` abstracts the loaded Keras model (its raw output row for one
preprocessed crop), and may fail like any Python call in the loop body. -/
def classifyCrop (e : ℚ → ℚ) (ops : VisionOps)
    (modelPredict : Image → Except PredictErr (List ℚ)) (crop : Image) :
    Except PredictErr SinglePrediction := do
  let preds ← modelPredict (preprocess_crop ops.resize224 crop)
  let score := softmax e preds
  let label := CLASSES.getD (argmaxIdx score) ""
  let confidence := 100 * maxListQ score
  return { predicted_class := label, confidence := confidence }

/-- The `for i, crop in enumerate(crops)` loop of `upload_and_predict`: the
loop body has no exception handler, so (like Python) the first failure aborts
the remaining iterations. -/
def predictionsLoop (e : ℚ → ℚ) (ops : VisionOps)
    (modelPredict : Image → Except PredictErr (List ℚ)) :
    List Image → Except PredictErr (List SinglePrediction)
  | [] => .ok []
  | crop :: rest => do
    let p ← classifyCrop e ops modelPredict crop
    let ps ← predictionsLoop e ops modelPredict rest
    return p :: ps

/-- The `upload_and_predict` endpoint of api.py: detect crops, classify each in order, and
answer with the crop count and per-crop predictions. -/
def upload_and_predict (ops : VisionOps) (e : ℚ → ℚ)
    (modelPredict : Image → Except PredictErr (List ℚ))
    (filename : String) (image_bytes : List Nat) :
    Except PredictErr BatchPredictionOut := do
  let crops := detect_and_crop ops image_bytes
  let predictions ← predictionsLoop e ops modelPredict crops
  return { filename := filename
           total_dates_found := crops.length
           results := predictions }

-- ===== src/inference/predictor.py: FruitPredictor.load_model =====

/-- The Python exception classes distinguished by `load_model`. -/
inductive LoadErr where
  | fileNotFound
  | osError
  | attributeError
  | importError
  | valueError
  | otherError
deriving DecidableEq, Repr

/-- The filesystem/Keras effects `load_model` performs, abstracted: `M` is the
type of models returned by `keras.models.load_model`, `W` the weight tensors
installed by `model.load_weights`. -/
structure ModelEnv (M W : Type) where
  pathExists : String → Bool
  load_model_file : String → Except LoadErr M
  load_weights : String → Except LoadErr W

/-- The load state reached by a successful `load_model`: either the prebuilt
artifact, or the reconstructed MobileNetV2 architecture holding the weight
tensors read in safe mode. -/
inductive LoadedModel (M W : Type) where
  | loaded (m : M)
  | fallbackLoaded (w : W)

/-- The observable steps of `load_model`, in execution order. -/
inductive LoadStep where
  | primaryLoad
  | buildArchitecture
  | dummyForward
  | loadWeightsStep
deriving DecidableEq, Repr

/-- The exception classes caught by the `except (OSError, AttributeError,
ImportError)` clause, i.e. the format/version failures that trigger the
fallback path. -/
def isFallbackTrigger : LoadErr → Bool
  | .osError => true
  | .attributeError => true
  | .importError => true
  | _ => false

/-- The method `FruitPredictor.load_model`: missing file raises `FileNotFoundError`;
otherwise try `keras.models.load_model`; on a format/version error rebuild the
architecture, run one dummy forward pass, and load only the weights from the
same path; any other error, and any error of the weight load, propagates.
Returns the result together with the trace of steps performed. -/
def load_model {M W : Type} (env : ModelEnv M W) (model_path : String) :
    Except LoadErr (LoadedModel M W) × List LoadStep :=
  if env.pathExists model_path = false then
    (.error .fileNotFound, [])
  else
    match env.load_model_file model_path with
    | .ok m => (.ok (.loaded m), [.primaryLoad])
    | .error e =>
      if isFallbackTrigger e then
        match env.load_weights model_path with
        | .ok w =>
          (.ok (.fallbackLoaded w),
            [.primaryLoad, .buildArchitecture, .dummyForward, .loadWeightsStep])
        | .error e2 =>
          (.error e2,
            [.primaryLoad, .buildArchitecture, .dummyForward, .loadWeightsStep])
      else (.error e, [.primaryLoad])

-- ===== src/inference/predictor.py: FruitPredictor.predict preprocessing =====

def NORMALIZATION_SCALE : ℚ := 255

/-- An n-dimensional numeric array: its shape and its values in row-major
order. -/
structure NdArray where
  shape : List Nat
  data : List ℚ
deriving DecidableEq, Repr

/-- NumPy `expand_dims(a, 0)`. -/
def expand_dims0 (a : NdArray) : NdArray :=
  { shape := 1 :: a.shape, data := a.data }

/-- Lines 122-123 of predictor.py: `if np.max(img_array) > 1.0:
img_array = img_array / NORMALIZATION_SCALE`. -/
def normalizeIfNeeded (a : NdArray) : NdArray :=
  if 1 < maxListQ a.data then
    { a with data := a.data.map fun v => v / NORMALIZATION_SCALE }
  else a

/-- The array branch of `FruitPredictor.predict` preprocessing (lines
117-125): rank 3 gains a batch axis, rank 4 passes through, any other rank
raises `ValueError`; then pixel values are scaled only when the observed
maximum exceeds 1. -/
def predictor_preprocess (a : NdArray) : Except PredictErr NdArray :=
  if a.shape.length = 3 then
    .ok (normalizeIfNeeded (expand_dims0 a))
  else if a.shape.length = 4 then
    .ok (normalizeIfNeeded a)
  else
    .error .shapeError

-- ===== spec-side definitions used for refinement comparisons =====

/-- Modelled from the spec: the MultiObject extraction as §4.4 words it, with
the darkness filter reading the crop's mean pixel intensity (all channels)
rather than what `_is_too_dark` computes.  Compared against
`detect_and_crop`'s conveyor branch. -/
def specMultiCrops (image : Image) (contours : List Contour) : List Image :=
  contours.filterMap fun contour =>
    if contour.w * contour.h < MIN_OBJECT_AREA then none
    else if meanIntensity
        (padded_crop image contour.x contour.y contour.w contour.h) <
        DARK_CROP_THRESHOLD then none
    else some (padded_crop image contour.x contour.y contour.w contour.h)

/-- Modelled from the spec: per-crop isolation as §7 words it — a crop whose
classification fails is dropped and the remaining crops' results are still
returned.  Compared against the actual prediction loop. -/
def specIsolatedResults (e : ℚ → ℚ) (ops : VisionOps)
    (modelPredict : Image → Except PredictErr (List ℚ)) (crops : List Image) :
    List SinglePrediction :=
  crops.filterMap fun crop => (classifyCrop e ops modelPredict crop).toOption

/-- A normalized probability distribution: non-negative entries summing to 1
(the condition §4.6 attaches to skipping the softmax transform). -/
def IsNormalizedDist (l : List ℚ) : Prop :=
  (∀ x ∈ l, 0 ≤ x) ∧ l.sum = 1

/-- A concrete strictly positive, strictly monotone stand-in for the
exponential, used to instantiate witnesses and counterexamples: `1 + x` on the
non-negatives, `1 / (1 - x)` on the negatives. -/
def eApprox (x : ℚ) : ℚ := if 0 ≤ x then 1 + x else 1 / (1 - x)

-- ===== concrete fixtures for witnesses and counterexamples =====

/-- The all-zero single-channel image. -/
def grayZero : Gray := { height := 0, width := 0, pix := fun _ _ => 0 }

/-- A vision stack whose decoder rejects every byte sequence. -/
def cvZero : VisionOps :=
  { imdecode := fun _ => none
    saturationChannel := fun _ => grayZero
    gaussianBlur5 := fun _ => grayZero
    findContours := fun _ => []
    resize224 := fun crop => crop }

/-- A 100x100 uniformly yellow image (BGR `(0, 255, 255)`): zero blue channel,
bright overall. -/
def yellowImage : Image :=
  { height := 100, width := 100, pix := fun _ _ => { b := 0, g := 255, r := 255 } }

/-- A 60x60 bounding rectangle at the origin, with a contour area small enough
to keep the scene on the conveyor-belt branch. -/
def cYellow : Contour := { x := 0, y := 0, w := 60, h := 60, area := 100 }

/-- A vision stack decoding everything to `yellowImage` and tracing exactly the
contour `cYellow`. -/
def cvYellow : VisionOps :=
  { imdecode := fun _ => some yellowImage
    saturationChannel := fun _ => grayZero
    gaussianBlur5 := fun _ => grayZero
    findContours := fun _ => [cYellow]
    resize224 := fun crop => crop }

/-- A 200x200 uniformly bright gray image (BGR `(200, 200, 200)`). -/
def brightImage : Image :=
  { height := 200, width := 200
    pix := fun _ _ => { b := 200, g := 200, r := 200 } }

def cBright1 : Contour := { x := 0, y := 0, w := 60, h := 60, area := 100 }

def cBright2 : Contour := { x := 0, y := 70, w := 60, h := 60, area := 100 }

def cBright3 : Contour := { x := 0, y := 140, w := 60, h := 50, area := 100 }

/-- A conveyor-belt scene with three valid bright objects. -/
def cvBelt : VisionOps :=
  { imdecode := fun _ => some brightImage
    saturationChannel := fun _ => grayZero
    gaussianBlur5 := fun _ => grayZero
    findContours := fun _ => [cBright1, cBright2, cBright3]
    resize224 := fun crop => crop }

/-- A model stub failing with a shape error exactly on the middle belt crop
(the only one of height 80 after padding and clipping). -/
def mpBelt (img : Image) : Except PredictErr (List ℚ) :=
  if img.height = 80 then .error .shapeError else .ok [1, 0]

/-- A contour covering 60% of `brightImage`, putting the scene on the
zoomed-in branch. -/
def cZoom : Contour := { x := 20, y := 20, w := 150, h := 160, area := 24000 }

/-- A zoomed-in scene over `brightImage`. -/
def cvZoom : VisionOps :=
  { imdecode := fun _ => some brightImage
    saturationChannel := fun _ => grayZero
    gaussianBlur5 := fun _ => grayZero
    findContours := fun _ => [cZoom]
    resize224 := fun crop => crop }

/-- A model stub answering the already-normalized distribution `[1, 0]` on
every input. -/
def mpNormalized (_ : Image) : Except PredictErr (List ℚ) := .ok [1, 0]

/-- A loader environment in which the artifact file is missing. -/
def envMissing : ModelEnv Nat Nat :=
  { pathExists := fun _ => false
    load_model_file := fun _ => .error .valueError
    load_weights := fun _ => .error .valueError }

/-- A loader environment in which the primary load fails with a format error
and the weight load succeeds. -/
def envFallback : ModelEnv Nat Nat :=
  { pathExists := fun _ => true
    load_model_file := fun _ => .error .osError
    load_weights := fun _ => .ok 7 }

-- ===== helper lemmas: folds, maxima, argmax =====

lemma foldl_max_le {l : List ℚ} {a M : ℚ} (ha : a ≤ M) (hl : ∀ x ∈ l, x ≤ M) :
    l.foldl max a ≤ M := by
  induction l generalizing a with
  | nil => simpa using ha
  | cons y ys ih =>
    simp only [List.foldl_cons]
    exact ih (max_le ha (hl y (by simp))) fun x hx => hl x (by simp [hx])

lemma le_foldl_max {l : List ℚ} {a : ℚ} : a ≤ l.foldl max a := by
  induction l generalizing a with
  | nil => simp
  | cons y ys ih => exact le_trans (le_max_left a y) ih

lemma mem_le_foldl_max {l : List ℚ} {a x : ℚ} (hx : x ∈ l) :
    x ≤ l.foldl max a := by
  induction l generalizing a with
  | nil => simp at hx
  | cons y ys ih =>
    rcases List.mem_cons.1 hx with rfl | hx2
    · exact le_trans (le_max_right a x) le_foldl_max
    · exact ih hx2

lemma maxListQ_le {l : List ℚ} {M : ℚ} (h0 : 0 ≤ M) (hl : ∀ x ∈ l, x ≤ M) :
    maxListQ l ≤ M := by
  cases l with
  | nil => simpa [maxListQ]
  | cons x xs =>
    exact foldl_max_le (hl x (by simp)) fun y hy => hl y (by simp [hy])

lemma le_maxListQ_of_mem {l : List ℚ} {x : ℚ} (hx : x ∈ l) : x ≤ maxListQ l := by
  cases l with
  | nil => simp at hx
  | cons y ys =>
    rcases List.mem_cons.1 hx with rfl | hx2
    · exact le_foldl_max
    · exact mem_le_foldl_max hx2

lemma argmaxIdx_lt_length {l : List ℚ} (h : l ≠ []) : argmaxIdx l < l.length := by
  induction l with
  | nil => simp at h
  | cons x xs ih =>
    cases xs with
    | nil => simp [argmaxIdx]
    | cons y ys =>
      simp only [argmaxIdx]
      split
      · exact Nat.succ_lt_succ (ih (by simp))
      · simp

lemma maxByArea_mem {c : Contour} {cs : List Contour} :
    maxByArea (c :: cs) ∈ c :: cs := by
  suffices h : ∀ (l : List Contour) (a : Contour),
      l.foldl (fun best d => if best.area < d.area then d else best) a ∈ a :: l by
    exact h cs c
  intro l
  induction l with
  | nil => intro a; simp
  | cons d ds ih =>
    intro a
    simp only [List.foldl_cons]
    rcases List.mem_cons.1 (ih (if a.area < d.area then d else a)) with h | h
    · rw [h]
      by_cases hc : a.area < d.area
      · simp [hc]
      · simp [hc]
    · exact List.mem_cons_of_mem _ (List.mem_cons_of_mem _ h)

-- ===== helper lemmas: pixel sums and constant images =====

lemma mem_imagePixels {image : Image} {q : Pix} (hq : q ∈ imagePixels image) :
    ∃ y x, y < image.height ∧ x < image.width ∧ q = image.pix y x := by
  simp only [imagePixels, List.mem_flatMap, List.mem_map, List.mem_range] at hq
  obtain ⟨y, hy, x, hx, rfl⟩ := hq
  exact ⟨y, x, hy, hx, rfl⟩

lemma length_imagePixels (image : Image) :
    (imagePixels image).length = image.height * image.width := by
  simp [imagePixels, List.length_flatMap, Function.comp_def, List.map_const',
    List.sum_replicate, smul_eq_mul, mul_comm]

lemma sum_map_const_of_mem {α : Type} (l : List α) (f : α → ℚ) (c : ℚ)
    (h : ∀ a ∈ l, f a = c) : (l.map f).sum = l.length * c := by
  induction l with
  | nil => simp
  | cons a as ih =>
    simp only [List.map_cons, List.sum_cons, List.length_cons]
    rw [h a (by simp), ih fun b hb => h b (by simp [hb])]
    push_cast
    ring

lemma meanChannel0_const {image : Image} {p : Pix}
    (hp : ∀ y x, image.pix y x = p) (hh : 0 < image.height)
    (hw : 0 < image.width) : meanChannel0 image = (p.b : ℚ) := by
  have hmem : ∀ q ∈ imagePixels image, ((q.b : ℚ)) = ((p.b : ℚ)) := by
    intro q hq
    obtain ⟨y, x, _, _, rfl⟩ := mem_imagePixels hq
    rw [hp]
  have hnz : (((image.height * image.width : Nat)) : ℚ) ≠ 0 :=
    Nat.cast_ne_zero.2 (Nat.mul_pos hh hw).ne'
  rw [meanChannel0, sum_map_const_of_mem _ _ _ hmem, length_imagePixels]
  exact mul_div_cancel_left₀ _ hnz

lemma meanIntensity_const {image : Image} {p : Pix}
    (hp : ∀ y x, image.pix y x = p) (hh : 0 < image.height)
    (hw : 0 < image.width) :
    meanIntensity image = (((p.b + p.g + p.r : Nat)) : ℚ) / 3 := by
  have hmem : ∀ q ∈ imagePixels image,
      (((q.b + q.g + q.r : Nat)) : ℚ) = (((p.b + p.g + p.r : Nat)) : ℚ) := by
    intro q hq
    obtain ⟨y, x, _, _, rfl⟩ := mem_imagePixels hq
    rw [hp]
  have hnz : (((image.height * image.width : Nat)) : ℚ) ≠ 0 :=
    Nat.cast_ne_zero.2 (Nat.mul_pos hh hw).ne'
  rw [meanIntensity, sum_map_const_of_mem _ _ _ hmem, length_imagePixels]
  rw [div_eq_div_iff (mul_ne_zero (by norm_num) hnz) (by norm_num : (3 : ℚ) ≠ 0)]
  ring

lemma padded_crop_pix_const {image : Image} {p : Pix}
    (hp : ∀ y x, image.pix y x = p) (x y w h : Nat) :
    ∀ i j, (padded_crop image x y w h).pix i j = p := fun _ _ => hp _ _

lemma is_too_dark_const {image : Image} {p : Pix}
    (hp : ∀ y x, image.pix y x = p) (hh : 0 < image.height)
    (hw : 0 < image.width) :
    is_too_dark image = decide ((p.b : ℚ) < DARK_CROP_THRESHOLD) := by
  simp [is_too_dark, meanChannel0_const hp hh hw]

-- ===== helper lemmas: softmax =====

lemma sum_map_pos {e : ℚ → ℚ} (hpos : ∀ x, 0 < e x) {l : List ℚ}
    (hl : l ≠ []) : 0 < (l.map e).sum := by
  cases l with
  | nil => simp at hl
  | cons x xs =>
    have h2 : 0 ≤ (xs.map e).sum := by
      apply List.sum_nonneg
      intro q hq
      obtain ⟨y, _, rfl⟩ := List.mem_map.1 hq
      exact le_of_lt (hpos y)
    simpa using add_pos_of_pos_of_nonneg (hpos x) h2

lemma softmax_nonneg {e : ℚ → ℚ} (hpos : ∀ x, 0 < e x) {l : List ℚ} :
    ∀ q ∈ softmax e l, 0 ≤ q := by
  intro q hq
  obtain ⟨x, hx, rfl⟩ := List.mem_map.1 hq
  have hl : l ≠ [] := List.ne_nil_of_mem hx
  exact le_of_lt (div_pos (hpos x) (sum_map_pos hpos hl))

lemma softmax_le_one {e : ℚ → ℚ} (hpos : ∀ x, 0 < e x) {l : List ℚ} :
    ∀ q ∈ softmax e l, q ≤ 1 := by
  intro q hq
  obtain ⟨x, hx, rfl⟩ := List.mem_map.1 hq
  have hl : l ≠ [] := List.ne_nil_of_mem hx
  have hle : e x ≤ (l.map e).sum := by
    apply List.single_le_sum
    · intro y hy
      obtain ⟨z, _, rfl⟩ := List.mem_map.1 hy
      exact le_of_lt (hpos z)
    · exact List.mem_map.2 ⟨x, hx, rfl⟩
  exact (div_le_one (sum_map_pos hpos hl)).2 hle

lemma sum_map_div (l : List ℚ) (f : ℚ → ℚ) (s : ℚ) :
    (l.map fun x => f x / s).sum = (l.map f).sum / s := by
  induction l with
  | nil => simp
  | cons x xs ih => simp [ih, add_div]

lemma softmax_sum {e : ℚ → ℚ} (hpos : ∀ x, 0 < e x) {l : List ℚ}
    (hl : l ≠ []) : (softmax e l).sum = 1 := by
  rw [softmax, sum_map_div]
  exact div_self (ne_of_gt (sum_map_pos hpos hl))

lemma length_softmax (e : ℚ → ℚ) (l : List ℚ) :
    (softmax e l).length = l.length := by
  simp [softmax]

lemma softmax_ne_nil {e : ℚ → ℚ} {l : List ℚ} (hl : l ≠ []) :
    softmax e l ≠ [] := by
  intro h
  apply hl
  have := congrArg List.length h
  rw [length_softmax] at this
  exact List.length_eq_zero.1 this

lemma eApprox_pos : ∀ x : ℚ, 0 < eApprox x := by
  intro x
  rw [eApprox]
  split
  · linarith
  · next h =>
    have : (0 : ℚ) < 1 - x := by linarith [lt_of_not_le h]
    positivity

-- ===== helper lemmas: the prediction loop =====

lemma predictionsLoop_ok_mem {e : ℚ → ℚ} {ops : VisionOps}
    {mp : Image → Except PredictErr (List ℚ)} :
    ∀ {crops : List Image} {res : List SinglePrediction},
      predictionsLoop e ops mp crops = .ok res →
      ∀ p ∈ res, ∃ crop ∈ crops, classifyCrop e ops mp crop = .ok p := by
  intro crops
  induction crops with
  | nil =>
    intro res h p hp
    simp only [predictionsLoop] at h
    cases h
    simp at hp
  | cons c cs ih =>
    intro res h p hp
    simp only [predictionsLoop] at h
    cases hc : classifyCrop e ops mp c with
    | error err => rw [hc] at h; simp [Bind.bind, Except.bind] at h
    | ok q =>
      rw [hc] at h
      cases hrest : predictionsLoop e ops mp cs with
      | error err =>
        rw [hrest] at h
        simp [Bind.bind, Except.bind] at h
      | ok qs =>
        rw [hrest] at h
        simp only [Bind.bind, Except.bind, pure, Except.pure] at h
        cases h
        rcases List.mem_cons.1 hp with rfl | hp2
        · exact ⟨c, by simp, hc⟩
        · obtain ⟨crop, hcrop, hcl⟩ := ih hrest p hp2
          exact ⟨crop, List.mem_cons_of_mem _ hcrop, hcl⟩

lemma predictionsLoop_error_of_mem {e : ℚ → ℚ} {ops : VisionOps}
    {mp : Image → Except PredictErr (List ℚ)} {crops : List Image} {c : Image}
    (hmem : c ∈ crops) {err : PredictErr}
    (herr : classifyCrop e ops mp c = .error err) :
    ∃ e2, predictionsLoop e ops mp crops = .error e2 := by
  induction crops with
  | nil => simp at hmem
  | cons d ds ih =>
    cases hd : classifyCrop e ops mp d with
    | error e2 =>
      exact ⟨e2, by simp [predictionsLoop, hd, Bind.bind, Except.bind]⟩
    | ok q =>
      rcases List.mem_cons.1 hmem with rfl | hmem2
      · rw [hd] at herr; cases herr
      · obtain ⟨e2, h2⟩ := ih hmem2
        exact ⟨e2, by simp [predictionsLoop, hd, h2, Bind.bind, Except.bind]⟩

-- ===== helper lemmas: Otsu's threshold selection =====

lemma foldl_argmax_spec (f : Nat → ℚ) (l : List Nat) (b : Nat) :
    f b ≤ f (l.foldl (fun best t => if f best < f t then t else best) b) ∧
    ∀ t ∈ l, f t ≤ f (l.foldl (fun best t => if f best < f t then t else best) b) := by
  induction l generalizing b with
  | nil => exact ⟨le_refl _, by simp⟩
  | cons a as ih =>
    simp only [List.foldl_cons]
    constructor
    · refine le_trans ?_ (ih (if f b < f a then a else b)).1
      by_cases h : f b < f a
      · simp only [if_pos h]
        exact le_of_lt h
      · simp only [if_neg h]
        exact le_refl _
    · intro t ht
      rcases List.mem_cons.1 ht with rfl | ht2
      · refine le_trans ?_ (ih (if f b < f t then t else b)).1
        by_cases h : f b < f t
        · simp only [if_pos h]
          exact le_refl _
        · simp only [if_neg h]
          exact le_of_not_lt h
      · exact (ih _).2 t ht2

lemma otsuThreshold_maximizes (vs : List Nat) :
    ∀ t, t < 256 →
      interClassVariance vs t ≤ interClassVariance vs (otsuThreshold vs) := by
  intro t ht
  exact (foldl_argmax_spec (interClassVariance vs) (List.range 256) 0).2 t
    (List.mem_range.2 ht)

-- ===== helper lemmas: binary masks through the morphology =====

/-- A mask whose values are all 0 or 255. -/
def IsBinaryMask (g : Gray) : Prop := ∀ y x, g.pix y x = 0 ∨ g.pix y x = 255

lemma thresholdBinary_isBinary (g : Gray) (t : Nat) :
    IsBinaryMask (thresholdBinary g t) := by
  intro y x
  simp only [thresholdBinary]
  split
  · right; rfl
  · left; rfl

lemma foldl_max_binary {l : List Nat} (hl : ∀ v ∈ l, v = 0 ∨ v = 255)
    {a : Nat} (ha : a = 0 ∨ a = 255) :
    l.foldl max a = 0 ∨ l.foldl max a = 255 := by
  induction l generalizing a with
  | nil => simpa using ha
  | cons v vs ih =>
    simp only [List.foldl_cons]
    apply ih fun u hu => hl u (by simp [hu])
    rcases ha with rfl | rfl <;> rcases hl v (by simp) with rfl | rfl <;> simp

lemma foldl_min_binary {l : List Nat} (hl : ∀ v ∈ l, v = 0 ∨ v = 255)
    {a : Nat} (ha : a = 0 ∨ a = 255) :
    l.foldl min a = 0 ∨ l.foldl min a = 255 := by
  induction l generalizing a with
  | nil => simpa using ha
  | cons v vs ih =>
    simp only [List.foldl_cons]
    apply ih fun u hu => hl u (by simp [hu])
    rcases ha with rfl | rfl <;> rcases hl v (by simp) with rfl | rfl <;> simp

lemma dilate_isBinary {g : Gray} (hg : IsBinaryMask g) (r : Nat) :
    IsBinaryMask (dilate g r) := by
  intro y x
  apply foldl_max_binary
  · intro v hv
    obtain ⟨p, _, rfl⟩ := List.mem_map.1 hv
    exact hg p.1 p.2
  · left; rfl

lemma erode_isBinary {g : Gray} (hg : IsBinaryMask g) (r : Nat) :
    IsBinaryMask (erode g r) := by
  intro y x
  apply foldl_min_binary
  · intro v hv
    obtain ⟨p, _, rfl⟩ := List.mem_map.1 hv
    exact hg p.1 p.2
  · right; rfl

lemma iterate_preserves (P : Gray → Prop) (f : Gray → Gray)
    (hf : ∀ g, P g → P (f g)) : ∀ (n : Nat) (g : Gray), P g → P (f^[n] g) := by
  intro n
  induction n with
  | zero => intro g hg; simpa using hg
  | succ n ih =>
    intro g hg
    rw [Function.iterate_succ_apply]
    exact ih _ (hf g hg)

lemma closing_isBinary {g : Gray} (hg : IsBinaryMask g) (r n : Nat) :
    IsBinaryMask (closing g r n) := by
  have hd : IsBinaryMask (dilateN g r n) := by
    unfold dilateN
    exact iterate_preserves IsBinaryMask (fun m => dilate m r)
      (fun m hm => dilate_isBinary hm r) n g hg
  unfold closing erodeN
  exact iterate_preserves IsBinaryMask (fun m => erode m r)
    (fun m hm => erode_isBinary hm r) n _ hd

lemma opening_isBinary {g : Gray} (hg : IsBinaryMask g) (r n : Nat) :
    IsBinaryMask (opening g r n) := by
  have he : IsBinaryMask (erodeN g r n) := by
    unfold erodeN
    exact iterate_preserves IsBinaryMask (fun m => erode m r)
      (fun m hm => erode_isBinary hm r) n g hg
  unfold opening dilateN
  exact iterate_preserves IsBinaryMask (fun m => dilate m r)
    (fun m hm => dilate_isBinary hm r) n _ he

-- ===== helper lemma: the conveyor-belt loop as a filter =====

lemma multiCrops_filterMap_eq (image : Image) (contours : List Contour) :
    (contours.filterMap fun contour =>
      if contour.w * contour.h < MIN_OBJECT_AREA then none
      else
        let crop := padded_crop image contour.x contour.y contour.w contour.h
        if is_too_dark crop then none
        else some crop) =
    ((contours.filter fun contour =>
        decide (MIN_OBJECT_AREA ≤ contour.w * contour.h) &&
          ! is_too_dark
            (padded_crop image contour.x contour.y contour.w contour.h)).map
      fun contour =>
        padded_crop image contour.x contour.y contour.w contour.h) := by
  induction contours with
  | nil => rfl
  | cons c cs ih =>
    simp only [List.filterMap_cons, List.filter_cons]
    by_cases h1 : c.w * c.h < MIN_OBJECT_AREA
    · simp [h1, Nat.not_le.2 h1, ih]
    · by_cases h2 : is_too_dark (padded_crop image c.x c.y c.w c.h)
      · simp [h1, h2, Nat.not_lt.1 h1, ih]
      · simp [h1, h2, Nat.not_lt.1 h1, ih]

-- ===== helper lemmas: unfolding the three branches of detect_and_crop =====

lemma detect_and_crop_none {ops : VisionOps} {image_bytes : List Nat}
    (hdec : ops.imdecode image_bytes = none) :
    detect_and_crop ops image_bytes = [] := by
  simp only [detect_and_crop, hdec]

lemma detect_and_crop_nocontours {ops : VisionOps} {image_bytes : List Nat}
    {image : Image} (hdec : ops.imdecode image_bytes = some image)
    (hcont : ops.findContours (create_foreground_mask ops image) = []) :
    detect_and_crop ops image_bytes = [] := by
  simp only [detect_and_crop, hdec, hcont]

lemma detect_and_crop_zoom {ops : VisionOps} {image_bytes : List Nat}
    {image : Image} {c : Contour} {cs : List Contour}
    (hdec : ops.imdecode image_bytes = some image)
    (hcont : ops.findContours (create_foreground_mask ops image) = c :: cs)
    (hcov : (maxByArea (c :: cs)).area /
        (((image.height : ℚ)) * ((image.width : ℚ))) > ZOOMED_IN_THRESHOLD) :
    detect_and_crop ops image_bytes =
      [padded_crop image (maxByArea (c :: cs)).x (maxByArea (c :: cs)).y
        (maxByArea (c :: cs)).w (maxByArea (c :: cs)).h] := by
  simp only [detect_and_crop, hdec, hcont]
  rw [if_pos hcov]

lemma detect_and_crop_multi {ops : VisionOps} {image_bytes : List Nat}
    {image : Image} {c : Contour} {cs : List Contour}
    (hdec : ops.imdecode image_bytes = some image)
    (hcont : ops.findContours (create_foreground_mask ops image) = c :: cs)
    (hcov : ¬ (maxByArea (c :: cs)).area /
        (((image.height : ℚ)) * ((image.width : ℚ))) > ZOOMED_IN_THRESHOLD) :
    detect_and_crop ops image_bytes =
      (c :: cs).filterMap fun contour =>
        if contour.w * contour.h < MIN_OBJECT_AREA then none
        else
          let crop := padded_crop image contour.x contour.y contour.w contour.h
          if is_too_dark crop then none
          else some crop := by
  simp only [detect_and_crop, hdec, hcont]
  rw [if_neg hcov]

-- ===== the claims =====

/-- Claim C1: for every byte sequence that fails to decode, and for every
decoded image whose foreground mask yields no external contours, the pipeline
entrypoint answers `total_dates_found = 0` with an empty result list, raises
nothing to the caller, and never invokes the classification model — the
conclusion holds for every model stub `modelPredict`, including ones that
always fail, so no model call can have been made. -/
theorem C1_short_circuit (ops : VisionOps) (e : ℚ → ℚ)
    (modelPredict : Image → Except PredictErr (List ℚ)) (filename : String)
    (image_bytes : List Nat)
    (h : ops.imdecode image_bytes = none ∨
      ∃ image, ops.imdecode image_bytes = some image ∧
        ops.findContours (create_foreground_mask ops image) = []) :
    upload_and_predict ops e modelPredict filename image_bytes =
      .ok { filename := filename, total_dates_found := 0, results := [] } := by
  have hempty : detect_and_crop ops image_bytes = [] := by
    rcases h with h | ⟨image, hdec, hcont⟩
    · exact detect_and_crop_none h
    · exact detect_and_crop_nocontours hdec hcont
  simp [upload_and_predict, hempty, predictionsLoop, Bind.bind, Except.bind,
    pure, Except.pure]

/-- Witness for C1 at a concrete input: an undecodable byte sequence, with a
model stub that fails on every call. -/
theorem C1_short_circuit_witness :
    (cvZero.imdecode [] = none ∨
      ∃ image, cvZero.imdecode [] = some image ∧
        cvZero.findContours (create_foreground_mask cvZero image) = []) ∧
    upload_and_predict cvZero (fun _ => 1) (fun _ => .error .shapeError)
        "upload" [] =
      .ok { filename := "upload", total_dates_found := 0, results := [] } :=
  ⟨Or.inl rfl,
    C1_short_circuit cvZero (fun _ => 1) (fun _ => .error .shapeError)
      "upload" [] (Or.inl rfl)⟩

/-- Claim C3: when the largest contour's coverage exceeds 0.50, the extractor
returns exactly one crop — the padded, bounds-clipped bounding box of the
largest contour — with no area or darkness filtering (the equality holds with
no hypothesis on the crop's size or brightness). -/
theorem C3_zoom_single_crop (ops : VisionOps) (image_bytes : List Nat)
    (image : Image) (c : Contour) (cs : List Contour)
    (hdec : ops.imdecode image_bytes = some image)
    (hcont : ops.findContours (create_foreground_mask ops image) = c :: cs)
    (hcov : (maxByArea (c :: cs)).area /
        (((image.height : ℚ)) * ((image.width : ℚ))) > ZOOMED_IN_THRESHOLD) :
    detect_and_crop ops image_bytes =
      [padded_crop image (maxByArea (c :: cs)).x (maxByArea (c :: cs)).y
        (maxByArea (c :: cs)).w (maxByArea (c :: cs)).h] :=
  detect_and_crop_zoom hdec hcont hcov

/-- Witness for C3 at a concrete input: a contour covering 60% of the frame. -/
theorem C3_zoom_single_crop_witness :
    cvZoom.imdecode [] = some brightImage ∧
    cvZoom.findContours (create_foreground_mask cvZoom brightImage) =
      [cZoom] ∧
    (maxByArea [cZoom]).area /
        (((brightImage.height : ℚ)) * ((brightImage.width : ℚ))) >
      ZOOMED_IN_THRESHOLD ∧
    detect_and_crop cvZoom [] =
      [padded_crop brightImage (maxByArea [cZoom]).x (maxByArea [cZoom]).y
        (maxByArea [cZoom]).w (maxByArea [cZoom]).h] :=
  ⟨rfl, rfl,
    by norm_num [maxByArea, cZoom, brightImage, ZOOMED_IN_THRESHOLD],
    C3_zoom_single_crop cvZoom [] brightImage cZoom [] rfl rfl
      (by norm_num [maxByArea, cZoom, brightImage, ZOOMED_IN_THRESHOLD])⟩

lemma specMultiCrops_singleton_keep {image : Image} {ctr : Contour}
    (h1 : ¬ ctr.w * ctr.h < MIN_OBJECT_AREA)
    (h2 : ¬ meanIntensity (padded_crop image ctr.x ctr.y ctr.w ctr.h) <
      DARK_CROP_THRESHOLD) :
    specMultiCrops image [ctr] =
      [padded_crop image ctr.x ctr.y ctr.w ctr.h] := by
  simp only [specMultiCrops, List.filterMap_cons, List.filterMap_nil]
  rw [if_neg h1, if_neg h2]

/-- Counterexample to claim C2 as stated: a conveyor-belt scene over a
uniformly yellow image (BGR `(0, 255, 255)`).  The single contour's box area
(3600) qualifies and the crop's mean pixel intensity is 170, far above the
darkness threshold 20, so per the claim the crop should survive — yet
`detect_and_crop` returns no crops, because `_is_too_dark` compares the mean
of the first (blue) channel, which is 0, against the threshold. -/
theorem C2_counterexample :
    (¬ (maxByArea [cYellow]).area /
        (((yellowImage.height : ℚ)) * ((yellowImage.width : ℚ))) >
      ZOOMED_IN_THRESHOLD) ∧
    MIN_OBJECT_AREA ≤ cYellow.w * cYellow.h ∧
    (¬ meanIntensity
        (padded_crop yellowImage cYellow.x cYellow.y cYellow.w cYellow.h) <
      DARK_CROP_THRESHOLD) ∧
    detect_and_crop cvYellow [] = [] ∧
    specMultiCrops yellowImage [cYellow] =
      [padded_crop yellowImage cYellow.x cYellow.y cYellow.w cYellow.h] := by
  have hpix : ∀ y x, yellowImage.pix y x = { b := 0, g := 255, r := 255 } :=
    fun _ _ => rfl
  have hcropH :
      0 < (padded_crop yellowImage cYellow.x cYellow.y cYellow.w cYellow.h).height := by
    decide
  have hcropW :
      0 < (padded_crop yellowImage cYellow.x cYellow.y cYellow.w cYellow.h).width := by
    decide
  have hmean :
      meanIntensity
        (padded_crop yellowImage cYellow.x cYellow.y cYellow.w cYellow.h) =
      (((0 + 255 + 255 : Nat)) : ℚ) / 3 :=
    meanIntensity_const (padded_crop_pix_const hpix _ _ _ _) hcropH hcropW
  have hdark :
      is_too_dark
        (padded_crop yellowImage cYellow.x cYellow.y cYellow.w cYellow.h) =
      true := by
    rw [is_too_dark_const (padded_crop_pix_const hpix _ _ _ _) hcropH hcropW]
    norm_num [DARK_CROP_THRESHOLD]
  have hcov : ¬ (maxByArea [cYellow]).area /
      (((yellowImage.height : ℚ)) * ((yellowImage.width : ℚ))) >
      ZOOMED_IN_THRESHOLD := by
    norm_num [maxByArea, cYellow, yellowImage, ZOOMED_IN_THRESHOLD]
  have harea : ¬ cYellow.w * cYellow.h < MIN_OBJECT_AREA := by decide
  refine ⟨hcov, by decide, ?_, ?_, ?_⟩
  · rw [hmean]
    norm_num [DARK_CROP_THRESHOLD]
  · rw [detect_and_crop_multi rfl rfl hcov, multiCrops_filterMap_eq,
      List.filter_cons]
    rw [hdark]
    simp
  · exact specMultiCrops_singleton_keep harea
      (by rw [hmean]; norm_num [DARK_CROP_THRESHOLD])

/-- Claim C2 (amended): on the conveyor-belt path the extractor keeps, in
contour traversal order, exactly the contours whose bounding-box area is at
least the minimum-area threshold and whose padded crop's mean of the first
(blue) channel — not the overall mean pixel intensity — is at least the
darkness threshold, returning their padded, bounds-clipped crops. -/
theorem C2_multi_filter (ops : VisionOps) (image_bytes : List Nat)
    (image : Image) (c : Contour) (cs : List Contour)
    (hdec : ops.imdecode image_bytes = some image)
    (hcont : ops.findContours (create_foreground_mask ops image) = c :: cs)
    (hcov : ¬ (maxByArea (c :: cs)).area /
        (((image.height : ℚ)) * ((image.width : ℚ))) > ZOOMED_IN_THRESHOLD) :
    detect_and_crop ops image_bytes =
      (((c :: cs).filter fun contour =>
          decide (MIN_OBJECT_AREA ≤ contour.w * contour.h) &&
            decide (¬ meanChannel0
                (padded_crop image contour.x contour.y contour.w contour.h) <
              DARK_CROP_THRESHOLD)).map
        fun contour =>
          padded_crop image contour.x contour.y contour.w contour.h) := by
  rw [detect_and_crop_multi hdec hcont hcov, multiCrops_filterMap_eq]
  simp only [is_too_dark, decide_not]

/-- Witness for the amended C2 on a concrete conveyor-belt scene with three
bright, sufficiently large objects. -/
theorem C2_multi_filter_witness :
    cvBelt.imdecode [] = some brightImage ∧
    cvBelt.findContours (create_foreground_mask cvBelt brightImage) =
      [cBright1, cBright2, cBright3] ∧
    (¬ (maxByArea [cBright1, cBright2, cBright3]).area /
        (((brightImage.height : ℚ)) * ((brightImage.width : ℚ))) >
      ZOOMED_IN_THRESHOLD) ∧
    detect_and_crop cvBelt [] =
      (([cBright1, cBright2, cBright3].filter fun contour =>
          decide (MIN_OBJECT_AREA ≤ contour.w * contour.h) &&
            decide (¬ meanChannel0
                (padded_crop brightImage contour.x contour.y contour.w
                  contour.h) <
              DARK_CROP_THRESHOLD)).map
        fun contour =>
          padded_crop brightImage contour.x contour.y contour.w contour.h) :=
  ⟨rfl, rfl,
    by norm_num [maxByArea, cBright1, cBright2, cBright3, brightImage,
      ZOOMED_IN_THRESHOLD],
    C2_multi_filter cvBelt [] brightImage cBright1 [cBright2, cBright3] rfl
      rfl
      (by norm_num [maxByArea, cBright1, cBright2, cBright3, brightImage,
        ZOOMED_IN_THRESHOLD])⟩

/-- Claim C6: every crop produced by the extractor, on either scene path, is
the sub-matrix of the source image cut at a padded box `(x1, y1, x2, y2)` with
`0 ≤ x1 < x2 ≤ width` and `0 ≤ y1 < y2 ≤ height`, hence non-empty — provided
each contour's bounding rectangle lies within the image with positive
extent, as `cv2.boundingRect` on a mask of the image's size guarantees. -/
theorem C6_crop_bounds (ops : VisionOps) (image_bytes : List Nat)
    (image : Image)
    (hdec : ops.imdecode image_bytes = some image)
    (hbound : ∀ ctr ∈ ops.findContours (create_foreground_mask ops image),
      0 < ctr.w ∧ 0 < ctr.h ∧ ctr.x + ctr.w ≤ image.width ∧
        ctr.y + ctr.h ≤ image.height) :
    ∀ crop ∈ detect_and_crop ops image_bytes,
      ∃ x1 x2 y1 y2, 0 ≤ x1 ∧ x1 < x2 ∧ x2 ≤ image.width ∧
        0 ≤ y1 ∧ y1 < y2 ∧ y2 ≤ image.height ∧
        crop = subImage image y1 y2 x1 x2 := by
  have mk : ∀ ctr : Contour, 0 < ctr.w → 0 < ctr.h →
      ctr.x + ctr.w ≤ image.width → ctr.y + ctr.h ≤ image.height →
      ∃ x1 x2 y1 y2, 0 ≤ x1 ∧ x1 < x2 ∧ x2 ≤ image.width ∧
        0 ≤ y1 ∧ y1 < y2 ∧ y2 ≤ image.height ∧
        padded_crop image ctr.x ctr.y ctr.w ctr.h = subImage image y1 y2 x1 x2 := by
    intro ctr hw hh hxw hyh
    refine ⟨ctr.x - CROP_PADDING,
      min image.width (ctr.x + ctr.w + CROP_PADDING),
      ctr.y - CROP_PADDING,
      min image.height (ctr.y + ctr.h + CROP_PADDING),
      Nat.zero_le _, ?_, min_le_left _ _, Nat.zero_le _, ?_,
      min_le_left _ _, rfl⟩
    · omega
    · omega
  intro crop hcrop
  cases hcont : ops.findContours (create_foreground_mask ops image) with
  | nil =>
    rw [detect_and_crop_nocontours hdec hcont] at hcrop
    simp at hcrop
  | cons c cs =>
    by_cases hcov : (maxByArea (c :: cs)).area /
        (((image.height : ℚ)) * ((image.width : ℚ))) > ZOOMED_IN_THRESHOLD
    · rw [detect_and_crop_zoom hdec hcont hcov] at hcrop
      simp only [List.mem_singleton] at hcrop
      subst hcrop
      obtain ⟨hw, hh, hxw, hyh⟩ :=
        hbound (maxByArea (c :: cs)) (by rw [hcont]; exact maxByArea_mem)
      exact mk _ hw hh hxw hyh
    · rw [detect_and_crop_multi hdec hcont hcov] at hcrop
      rw [List.mem_filterMap] at hcrop
      obtain ⟨ctr, hmem, hf⟩ := hcrop
      simp only at hf
      by_cases h1 : ctr.w * ctr.h < MIN_OBJECT_AREA
      · rw [if_pos h1] at hf
        cases hf
      · rw [if_neg h1] at hf
        by_cases h2 : is_too_dark (padded_crop image ctr.x ctr.y ctr.w ctr.h)
        · rw [if_pos h2] at hf
          cases hf
        · rw [if_neg h2] at hf
          obtain rfl : padded_crop image ctr.x ctr.y ctr.w ctr.h = crop :=
            Option.some.inj hf
          obtain ⟨hw, hh, hxw, hyh⟩ := hbound ctr (by rw [hcont]; exact hmem)
          exact mk _ hw hh hxw hyh

/-- Witness for C6 on the concrete conveyor-belt scene. -/
theorem C6_crop_bounds_witness :
    cvBelt.imdecode [] = some brightImage ∧
    (∀ ctr ∈ cvBelt.findContours (create_foreground_mask cvBelt brightImage),
      0 < ctr.w ∧ 0 < ctr.h ∧ ctr.x + ctr.w ≤ brightImage.width ∧
        ctr.y + ctr.h ≤ brightImage.height) ∧
    ∀ crop ∈ detect_and_crop cvBelt [],
      ∃ x1 x2 y1 y2, 0 ≤ x1 ∧ x1 < x2 ∧ x2 ≤ brightImage.width ∧
        0 ≤ y1 ∧ y1 < y2 ∧ y2 ≤ brightImage.height ∧
        crop = subImage brightImage y1 y2 x1 x2 :=
  ⟨rfl, by decide, C6_crop_bounds cvBelt [] brightImage rfl (by decide)⟩

-- ===== C4: the loader state machine, case by case =====

lemma load_model_missing {M W : Type} (env : ModelEnv M W) (p : String)
    (h : env.pathExists p = false) :
    (load_model env p).1 = .error .fileNotFound := by
  simp [load_model, h]

lemma load_model_fallback_iff {M W : Type} (env : ModelEnv M W) (p : String)
    (e : LoadErr) (hex : env.pathExists p = true)
    (he : env.load_model_file p = .error e) :
    (LoadStep.buildArchitecture ∈ (load_model env p).2 ∧
      (load_model env p).2 =
        [.primaryLoad, .buildArchitecture, .dummyForward,
          .loadWeightsStep]) ↔
      isFallbackTrigger e = true := by
  unfold load_model
  rw [hex, he]
  by_cases ht : isFallbackTrigger e = true
  · cases hw : env.load_weights p <;> simp [ht, hw]
  · simp [ht]

lemma load_model_both_fail {M W : Type} (env : ModelEnv M W) (p : String)
    (e e2 : LoadErr) (hex : env.pathExists p = true)
    (he : env.load_model_file p = .error e) (ht : isFallbackTrigger e = true)
    (hw : env.load_weights p = .error e2) :
    (load_model env p).1 = .error e2 := by
  unfold load_model
  rw [hex, he, hw]
  simp [ht]

lemma load_model_ok_inv {M W : Type} (env : ModelEnv M W) (p : String) :
    ∀ s, (load_model env p).1 = .ok s →
      (∃ m, env.load_model_file p = .ok m ∧ s = .loaded m) ∨
      (∃ e w, env.load_model_file p = .error e ∧ isFallbackTrigger e = true ∧
        env.load_weights p = .ok w ∧ s = .fallbackLoaded w) := by
  intro s hs
  unfold load_model at hs
  by_cases hex : env.pathExists p = false
  · simp [hex] at hs
  · rw [if_neg hex] at hs
    cases hload : env.load_model_file p with
    | ok m =>
      rw [hload] at hs
      simp only at hs
      cases hs
      exact Or.inl ⟨m, rfl, rfl⟩
    | error e =>
      rw [hload] at hs
      dsimp only at hs
      by_cases ht : isFallbackTrigger e = true
      · rw [if_pos ht] at hs
        cases hw : env.load_weights p with
        | ok w =>
          rw [hw] at hs
          dsimp only at hs
          cases hs
          exact Or.inr ⟨e, w, rfl, ht, rfl, rfl⟩
        | error e2 =>
          rw [hw] at hs
          simp at hs
      · rw [if_neg ht] at hs
        simp at hs

/-- Claim C4: `load_model` fails with the missing-artifact error when no file
exists at the configured path; the fallback (rebuild the architecture, run one
dummy forward pass, then load only the weights from the same path) runs
exactly when the primary load fails with one of the caught format/version
errors; when the fallback's weight load also fails, that error propagates; and
a successful result only ever arises from a complete primary load or a
complete fallback load — never a partial one. -/
theorem C4_loader {M W : Type} (env : ModelEnv M W) (model_path : String) :
    (env.pathExists model_path = false →
      (load_model env model_path).1 = .error .fileNotFound) ∧
    (∀ e, env.pathExists model_path = true →
      env.load_model_file model_path = .error e →
      ((LoadStep.buildArchitecture ∈ (load_model env model_path).2 ∧
        (load_model env model_path).2 =
          [.primaryLoad, .buildArchitecture, .dummyForward,
            .loadWeightsStep]) ↔
        isFallbackTrigger e = true)) ∧
    (∀ e e2, env.pathExists model_path = true →
      env.load_model_file model_path = .error e →
      isFallbackTrigger e = true → env.load_weights model_path = .error e2 →
      (load_model env model_path).1 = .error e2) ∧
    (∀ s, (load_model env model_path).1 = .ok s →
      (∃ m, env.load_model_file model_path = .ok m ∧ s = .loaded m) ∨
      (∃ e w, env.load_model_file model_path = .error e ∧
        isFallbackTrigger e = true ∧ env.load_weights model_path = .ok w ∧
        s = .fallbackLoaded w)) :=
  ⟨load_model_missing env model_path,
    fun e hex he => load_model_fallback_iff env model_path e hex he,
    fun e e2 hex he ht hw => load_model_both_fail env model_path e e2 hex he ht hw,
    load_model_ok_inv env model_path⟩

/-- Witness for C4 at two concrete loader environments: a missing artifact
file, and a fallback-triggering primary failure whose trace shows the
rebuild, dummy forward pass, and weight load. -/
theorem C4_loader_witness :
    (envMissing.pathExists "models/mobilenet_dates.keras" = false ∧
      (load_model envMissing "models/mobilenet_dates.keras").1 =
        .error .fileNotFound) ∧
    (envFallback.pathExists "models/mobilenet_dates.keras" = true ∧
      envFallback.load_model_file "models/mobilenet_dates.keras" =
        .error .osError ∧
      (load_model envFallback "models/mobilenet_dates.keras").2 =
        [.primaryLoad, .buildArchitecture, .dummyForward,
          .loadWeightsStep]) :=
  ⟨⟨rfl, (C4_loader envMissing "models/mobilenet_dates.keras").1 rfl⟩,
    ⟨rfl, rfl,
      (((C4_loader envFallback "models/mobilenet_dates.keras").2.1 .osError
        rfl rfl).mpr rfl).2⟩⟩

-- ===== C5/C8 groundwork: what one successful classification looks like =====

lemma classifyCrop_ok_spec {e : ℚ → ℚ} {ops : VisionOps}
    {mp : Image → Except PredictErr (List ℚ)} {crop : Image}
    {p : SinglePrediction}
    (hpos : ∀ x, 0 < e x)
    (hlen : ∀ img l, mp img = .ok l → l.length = 2)
    (hok : classifyCrop e ops mp crop = .ok p) :
    (0 ≤ p.confidence ∧ p.confidence ≤ 100) ∧
    (p.predicted_class = "Fresh" ∨ p.predicted_class = "Dry") := by
  unfold classifyCrop at hok
  cases hmp : mp (preprocess_crop ops.resize224 crop) with
  | error err =>
    rw [hmp] at hok
    simp [Bind.bind, Except.bind] at hok
  | ok preds =>
    rw [hmp] at hok
    simp only [Bind.bind, Except.bind, pure, Except.pure] at hok
    cases hok
    have hl2 : preds.length = 2 := hlen _ _ hmp
    have hne : preds ≠ [] := by
      intro h
      rw [h] at hl2
      simp at hl2
    have hsne : softmax e preds ≠ [] := softmax_ne_nil hne
    constructor
    · constructor
      · obtain ⟨q, hq⟩ := List.exists_mem_of_ne_nil _ hsne
        have h0q := softmax_nonneg hpos q hq
        have hqm := le_maxListQ_of_mem hq
        simp only
        linarith
      · have hmax := maxListQ_le (l := softmax e preds)
          (by norm_num : (0 : ℚ) ≤ 1) fun q hq => softmax_le_one hpos q hq
        simp only
        linarith
    · have hidx : argmaxIdx (softmax e preds) < 2 := by
        have h := argmaxIdx_lt_length hsne
        rwa [length_softmax, hl2] at h
      have h01 : argmaxIdx (softmax e preds) = 0 ∨
          argmaxIdx (softmax e preds) = 1 := by omega
      rcases h01 with h | h
      · left
        simp only [h]
        rfl
      · right
        simp only [h]
        rfl

/-- Claim C5: every classification result the endpoint returns has confidence
in `[0, 100]` and a predicted label among the two configured class names,
for any positive exponential and any model whose output row has the
configured two classes. -/
theorem C5_result_invariants (ops : VisionOps) (e : ℚ → ℚ)
    (mp : Image → Except PredictErr (List ℚ)) (filename : String)
    (image_bytes : List Nat) (out : BatchPredictionOut)
    (hpos : ∀ x, 0 < e x)
    (hlen : ∀ img l, mp img = .ok l → l.length = 2)
    (hok : upload_and_predict ops e mp filename image_bytes = .ok out) :
    ∀ p ∈ out.results,
      (0 ≤ p.confidence ∧ p.confidence ≤ 100) ∧
      (p.predicted_class = "Fresh" ∨ p.predicted_class = "Dry") := by
  unfold upload_and_predict at hok
  dsimp only at hok
  cases hloop : predictionsLoop e ops mp (detect_and_crop ops image_bytes) with
  | error err =>
    rw [hloop] at hok
    simp [Bind.bind, Except.bind] at hok
  | ok res =>
    rw [hloop] at hok
    simp only [Bind.bind, Except.bind, pure, Except.pure] at hok
    cases hok
    intro p hp
    obtain ⟨crop, _, hcl⟩ := predictionsLoop_ok_mem hloop p hp
    exact classifyCrop_ok_spec hpos hlen hcl

-- ===== concrete evaluations used by several witnesses =====

lemma softmax_eApprox_eval :
    softmax eApprox [(1 : ℚ), 0] = [2 / 3, 1 / 3] := by
  norm_num [softmax, eApprox]

lemma classifyCrop_ok_two (ops : VisionOps)
    (mp : Image → Except PredictErr (List ℚ)) (crop : Image)
    (hmp : mp (preprocess_crop ops.resize224 crop) = .ok [(1 : ℚ), 0]) :
    classifyCrop eApprox ops mp crop =
      .ok { predicted_class := "Fresh", confidence := 200 / 3 } := by
  unfold classifyCrop
  rw [hmp]
  simp only [Bind.bind, Except.bind, pure, Except.pure, softmax_eApprox_eval]
  norm_num [maxListQ, argmaxIdx, CLASSES]

lemma detect_cvZoom_eval :
    detect_and_crop cvZoom [] =
      [padded_crop brightImage (maxByArea [cZoom]).x (maxByArea [cZoom]).y
        (maxByArea [cZoom]).w (maxByArea [cZoom]).h] :=
  detect_and_crop_zoom rfl rfl
    (by norm_num [maxByArea, cZoom, brightImage, ZOOMED_IN_THRESHOLD])

def outZoom : BatchPredictionOut :=
  { filename := "f"
    total_dates_found := 1
    results := [{ predicted_class := "Fresh", confidence := 200 / 3 }] }

lemma upload_cvZoom_eval :
    upload_and_predict cvZoom eApprox mpNormalized "f" [] = .ok outZoom := by
  have hcl := classifyCrop_ok_two cvZoom mpNormalized
    (padded_crop brightImage (maxByArea [cZoom]).x (maxByArea [cZoom]).y
      (maxByArea [cZoom]).w (maxByArea [cZoom]).h) rfl
  unfold upload_and_predict
  rw [detect_cvZoom_eval]
  simp only [predictionsLoop, hcl, Bind.bind, Except.bind, pure, Except.pure]
  rfl

/-- Witness for C5 on a concrete zoomed-in scene: one crop, classified as
`Fresh` with confidence `200/3`. -/
theorem C5_result_invariants_witness :
    (∀ x : ℚ, 0 < eApprox x) ∧
    (∀ img l, mpNormalized img = .ok l → l.length = 2) ∧
    upload_and_predict cvZoom eApprox mpNormalized "f" [] = .ok outZoom ∧
    ∀ p ∈ outZoom.results,
      (0 ≤ p.confidence ∧ p.confidence ≤ 100) ∧
      (p.predicted_class = "Fresh" ∨ p.predicted_class = "Dry") :=
  ⟨eApprox_pos, fun _ l h => by cases h; rfl, upload_cvZoom_eval,
    C5_result_invariants cvZoom eApprox mpNormalized "f" [] outZoom eApprox_pos
      (fun _ l h => by cases h; rfl) upload_cvZoom_eval⟩

/-- Counterexample to claim C8 as stated: the model's raw output `[1, 0]` is
already a normalized probability distribution, so by the claim the softmax
transform would be skipped and the confidence would be `100 * 1 = 100`; the
pipeline applies the softmax transform unconditionally and reports `200/3`
(with the strictly positive exponential stand-in; any strictly positive
exponential sends `[1, 0]` to a distribution with second entry above 0, so
softmax never fixes this input). -/
theorem C8_counterexample :
    IsNormalizedDist [(1 : ℚ), 0] ∧
    mpNormalized brightImage = .ok [(1 : ℚ), 0] ∧
    classifyCrop eApprox cvZoom mpNormalized brightImage =
      .ok { predicted_class := "Fresh", confidence := 200 / 3 } ∧
    ¬ ((200 : ℚ) / 3 = 100 * maxListQ [(1 : ℚ), 0]) := by
  refine ⟨⟨?_, by norm_num⟩, rfl,
    classifyCrop_ok_two cvZoom mpNormalized brightImage rfl, ?_⟩
  · intro x hx
    rcases List.mem_cons.1 hx with rfl | hx
    · norm_num
    · rcases List.mem_cons.1 hx with rfl | hx
      · norm_num
      · simp at hx
  · norm_num [maxListQ, List.foldl]

/-- Claim C8 (amended): the softmax transform is applied to the raw model
output unconditionally (whether or not it is already normalized); the result
is a probability distribution (non-negative entries summing to 1 for any
strictly positive exponential), the predicted label is its argmax class and
the confidence is 100 times its maximum. -/
theorem C8_softmax_unconditional (e : ℚ → ℚ) (ops : VisionOps)
    (mp : Image → Except PredictErr (List ℚ)) (crop : Image) (preds : List ℚ)
    (hpos : ∀ x, 0 < e x)
    (hmp : mp (preprocess_crop ops.resize224 crop) = .ok preds)
    (hne : preds ≠ []) :
    classifyCrop e ops mp crop = .ok
      { predicted_class := CLASSES.getD (argmaxIdx (softmax e preds)) ""
        confidence := 100 * maxListQ (softmax e preds) } ∧
    (softmax e preds).sum = 1 ∧ (∀ q ∈ softmax e preds, 0 ≤ q) := by
  refine ⟨?_, softmax_sum hpos hne, softmax_nonneg hpos⟩
  unfold classifyCrop
  rw [hmp]
  rfl

/-- Witness for the amended C8 at the concrete normalized output `[1, 0]`. -/
theorem C8_softmax_unconditional_witness :
    (∀ x : ℚ, 0 < eApprox x) ∧
    mpNormalized brightImage = .ok [(1 : ℚ), 0] ∧
    ([(1 : ℚ), 0] ≠ []) ∧
    (classifyCrop eApprox cvZoom mpNormalized brightImage = .ok
      { predicted_class :=
          CLASSES.getD (argmaxIdx (softmax eApprox [(1 : ℚ), 0])) ""
        confidence := 100 * maxListQ (softmax eApprox [(1 : ℚ), 0]) } ∧
    (softmax eApprox [(1 : ℚ), 0]).sum = 1 ∧
    (∀ q ∈ softmax eApprox [(1 : ℚ), 0], 0 ≤ q)) :=
  ⟨eApprox_pos, rfl, by simp,
    C8_softmax_unconditional eApprox cvZoom mpNormalized brightImage
      [(1 : ℚ), 0] eApprox_pos rfl (by simp)⟩

-- ===== C7 groundwork: evaluating the belt scene =====

lemma is_too_dark_bright (x y w h : Nat)
    (hh : 0 < (padded_crop brightImage x y w h).height)
    (hw : 0 < (padded_crop brightImage x y w h).width) :
    is_too_dark (padded_crop brightImage x y w h) = false := by
  rw [is_too_dark_const (padded_crop_pix_const (fun _ _ => rfl) x y w h) hh hw]
  simp only [decide_eq_false_iff_not, DARK_CROP_THRESHOLD]
  norm_num

lemma detect_cvBelt_eval :
    detect_and_crop cvBelt [] =
      [padded_crop brightImage cBright1.x cBright1.y cBright1.w cBright1.h,
        padded_crop brightImage cBright2.x cBright2.y cBright2.w cBright2.h,
        padded_crop brightImage cBright3.x cBright3.y cBright3.w cBright3.h] := by
  have hcov : ¬ (maxByArea [cBright1, cBright2, cBright3]).area /
      (((brightImage.height : ℚ)) * ((brightImage.width : ℚ))) >
      ZOOMED_IN_THRESHOLD := by
    norm_num [maxByArea, cBright1, cBright2, cBright3, brightImage,
      ZOOMED_IN_THRESHOLD]
  rw [detect_and_crop_multi rfl rfl hcov, multiCrops_filterMap_eq]
  have h1 := is_too_dark_bright cBright1.x cBright1.y cBright1.w cBright1.h
    (by decide) (by decide)
  have h2 := is_too_dark_bright cBright2.x cBright2.y cBright2.w cBright2.h
    (by decide) (by decide)
  have h3 := is_too_dark_bright cBright3.x cBright3.y cBright3.w cBright3.h
    (by decide) (by decide)
  have a1 : decide (MIN_OBJECT_AREA ≤ cBright1.w * cBright1.h) = true := by
    decide
  have a2 : decide (MIN_OBJECT_AREA ≤ cBright2.w * cBright2.h) = true := by
    decide
  have a3 : decide (MIN_OBJECT_AREA ≤ cBright3.w * cBright3.h) = true := by
    decide
  simp only [List.filter_cons, List.filter_nil, h1, h2, h3, a1, a2, a3,
    Bool.not_false, Bool.and_self, if_pos, List.map_cons, List.map_nil]

lemma classify_belt2_err :
    classifyCrop eApprox cvBelt mpBelt
      (padded_crop brightImage cBright2.x cBright2.y cBright2.w cBright2.h) =
      .error .shapeError := rfl

lemma upload_cvBelt_eval :
    upload_and_predict cvBelt eApprox mpBelt "f" [] = .error .shapeError := by
  have hc1 := classifyCrop_ok_two cvBelt mpBelt
    (padded_crop brightImage cBright1.x cBright1.y cBright1.w cBright1.h) rfl
  unfold upload_and_predict
  rw [detect_cvBelt_eval]
  simp only [predictionsLoop, hc1, classify_belt2_err, Bind.bind, Except.bind,
    pure, Except.pure]

lemma specIsolated_cvBelt_eval :
    (specIsolatedResults eApprox cvBelt mpBelt
      (detect_and_crop cvBelt [])).length = 2 := by
  have hc1 := classifyCrop_ok_two cvBelt mpBelt
    (padded_crop brightImage cBright1.x cBright1.y cBright1.w cBright1.h) rfl
  have hc3 := classifyCrop_ok_two cvBelt mpBelt
    (padded_crop brightImage cBright3.x cBright3.y cBright3.w cBright3.h) rfl
  rw [detect_cvBelt_eval]
  simp [specIsolatedResults, hc1, hc3, classify_belt2_err, Except.toOption]

/-- Counterexample to claim C7 as stated: a belt scene with three valid crops
where the classifier raises a shape error on the middle crop only.  Per the
claim the failure is isolated and the other two crops' results are returned;
in the code the whole request fails with the shape error and no results at
all are produced (the spec-side isolated semantics would return 2 results). -/
theorem C7_counterexample :
    classifyCrop eApprox cvBelt mpBelt
      (padded_crop brightImage cBright2.x cBright2.y cBright2.w cBright2.h) =
      .error .shapeError ∧
    upload_and_predict cvBelt eApprox mpBelt "f" [] = .error .shapeError ∧
    (specIsolatedResults eApprox cvBelt mpBelt
      (detect_and_crop cvBelt [])).length = 2 :=
  ⟨classify_belt2_err, upload_cvBelt_eval, specIsolated_cvBelt_eval⟩

/-- Claim C7 (amended): a shape error while classifying any one crop is not
isolated — it aborts the remaining iterations and the endpoint returns an
error, so no per-crop results are delivered for that request. -/
theorem C7_error_propagates (ops : VisionOps) (e : ℚ → ℚ)
    (mp : Image → Except PredictErr (List ℚ)) (filename : String)
    (image_bytes : List Nat) (crop : Image)
    (hmem : crop ∈ detect_and_crop ops image_bytes) (err : PredictErr)
    (herr : classifyCrop e ops mp crop = .error err) :
    ∃ e2, upload_and_predict ops e mp filename image_bytes = .error e2 := by
  obtain ⟨e2, h2⟩ := predictionsLoop_error_of_mem hmem herr
  refine ⟨e2, ?_⟩
  unfold upload_and_predict
  dsimp only
  rw [h2]
  rfl

/-- Witness for the amended C7 on the concrete belt scene. -/
theorem C7_error_propagates_witness :
    (padded_crop brightImage cBright2.x cBright2.y cBright2.w cBright2.h ∈
      detect_and_crop cvBelt []) ∧
    classifyCrop eApprox cvBelt mpBelt
      (padded_crop brightImage cBright2.x cBright2.y cBright2.w cBright2.h) =
      .error .shapeError ∧
    ∃ e2, upload_and_predict cvBelt eApprox mpBelt "f" [] = .error e2 :=
  ⟨by
      rw [detect_cvBelt_eval]
      exact List.mem_cons_of_mem _ (List.mem_cons_self _ _),
    classify_belt2_err,
    C7_error_propagates cvBelt eApprox mpBelt "f" []
      (padded_crop brightImage cBright2.x cBright2.y cBright2.w cBright2.h)
      (by
        rw [detect_cvBelt_eval]
        exact List.mem_cons_of_mem _ (List.mem_cons_self _ _))
      .shapeError classify_belt2_err⟩

/-- Claim C9: predictor preprocessing divides by the normalization scale if
and only if the observed maximum exceeds 1 (stated as both directions of the
conditional); when the input values lie in `[0, 255]` the output values lie in
`[0, 1]`; and on an already-normalized tensor (values in `[0, 1]`) the step is
the identity, so normalization is idempotent.  The rank-3 branch of
`predictor_preprocess` feeds the batched array through exactly this step. -/
theorem C9_normalization (a : NdArray) :
    (a.shape.length = 3 →
      predictor_preprocess a = .ok (normalizeIfNeeded (expand_dims0 a))) ∧
    (1 < maxListQ a.data →
      normalizeIfNeeded a =
        { a with data := a.data.map fun v => v / NORMALIZATION_SCALE }) ∧
    (¬ 1 < maxListQ a.data → normalizeIfNeeded a = a) ∧
    ((∀ v ∈ a.data, 0 ≤ v ∧ v ≤ 255) →
      ∀ v ∈ (normalizeIfNeeded a).data, 0 ≤ v ∧ v ≤ 1) ∧
    ((∀ v ∈ a.data, 0 ≤ v ∧ v ≤ 1) → normalizeIfNeeded a = a) := by
  have hid : ∀ (hno : ¬ 1 < maxListQ a.data), normalizeIfNeeded a = a := by
    intro hno
    rw [normalizeIfNeeded, if_neg hno]
  refine ⟨?_, ?_, hid, ?_, ?_⟩
  · intro h3
    rw [predictor_preprocess, if_pos h3]
  · intro hgt
    rw [normalizeIfNeeded, if_pos hgt]
  · intro hb
    by_cases hgt : 1 < maxListQ a.data
    · rw [normalizeIfNeeded, if_pos hgt]
      intro v hv
      simp only at hv
      obtain ⟨w, hw, rfl⟩ := List.mem_map.1 hv
      obtain ⟨h0, h255⟩ := hb w hw
      constructor
      · exact div_nonneg h0 (by norm_num [NORMALIZATION_SCALE])
      · rw [div_le_one (by norm_num [NORMALIZATION_SCALE])]
        simpa [NORMALIZATION_SCALE] using h255
    · rw [hid hgt]
      intro v hv
      obtain ⟨h0, _⟩ := hb v hv
      refine ⟨h0, ?_⟩
      exact le_trans (le_maxListQ_of_mem hv) (le_of_not_lt hgt)
  · intro hb
    apply hid
    intro hgt
    have hmax : maxListQ a.data ≤ 1 := by
      apply maxListQ_le (by norm_num)
      intro v hv
      exact (hb v hv).2
    linarith

/-- Witness for C9 at a concrete rank-3, already-normalized tensor: the
preprocessing leaves its values unchanged. -/
theorem C9_normalization_witness :
    (∀ v ∈ ({ shape := [2, 2, 3], data := [1 / 2, 1, 0, 1 / 4] } :
        NdArray).data, 0 ≤ v ∧ v ≤ 1) ∧
    normalizeIfNeeded { shape := [2, 2, 3], data := [1 / 2, 1, 0, 1 / 4] } =
      { shape := [2, 2, 3], data := [1 / 2, 1, 0, 1 / 4] } :=
  ⟨by
      intro v hv
      rcases List.mem_cons.1 hv with rfl | hv
      · norm_num
      · rcases List.mem_cons.1 hv with rfl | hv
        · norm_num
        · rcases List.mem_cons.1 hv with rfl | hv
          · norm_num
          · rcases List.mem_cons.1 hv with rfl | hv
            · norm_num
            · simp at hv,
    (C9_normalization { shape := [2, 2, 3], data := [1 / 2, 1, 0, 1 / 4] }).2.2.2.2
      (by
        intro v hv
        rcases List.mem_cons.1 hv with rfl | hv
        · norm_num
        · rcases List.mem_cons.1 hv with rfl | hv
          · norm_num
          · rcases List.mem_cons.1 hv with rfl | hv
            · norm_num
            · rcases List.mem_cons.1 hv with rfl | hv
              · norm_num
              · simp at hv)⟩

/-- Claim C10: the segmenter computes the mask by taking the saturation
channel, blurring it, binarising at the automatic threshold that maximises the
inter-class variance of the value histogram (no manual cutoff), then applying
morphological closing followed by morphological opening — in that order — with
the fixed 7x7 all-ones structuring element; the result is a binary mask. -/
theorem C10_mask_pipeline (ops : VisionOps) (image : Image) :
    (create_foreground_mask ops image =
      opening
        (closing
          (thresholdBinary (ops.gaussianBlur5 (ops.saturationChannel image))
            (otsuThreshold
              (grayValues (ops.gaussianBlur5 (ops.saturationChannel image)))))
          (kernelRadius MORPH_KERNEL) 2)
        (kernelRadius MORPH_KERNEL) 1) ∧
    (∀ t, t < 256 →
      interClassVariance
          (grayValues (ops.gaussianBlur5 (ops.saturationChannel image))) t ≤
        interClassVariance
          (grayValues (ops.gaussianBlur5 (ops.saturationChannel image)))
          (otsuThreshold
            (grayValues (ops.gaussianBlur5 (ops.saturationChannel image))))) ∧
    IsBinaryMask (create_foreground_mask ops image) := by
  refine ⟨rfl, otsuThreshold_maximizes _, ?_⟩
  have h1 : create_foreground_mask ops image =
      opening
        (closing
          (thresholdBinary (ops.gaussianBlur5 (ops.saturationChannel image))
            (otsuThreshold
              (grayValues (ops.gaussianBlur5 (ops.saturationChannel image)))))
          (kernelRadius MORPH_KERNEL) 2)
        (kernelRadius MORPH_KERNEL) 1 := rfl
  rw [h1]
  exact opening_isBinary
    (closing_isBinary (thresholdBinary_isBinary _ _) _ _) _ _

/-- Witness for C10 at a concrete stack and threshold candidate `t = 5`. -/
theorem C10_mask_pipeline_witness :
    5 < 256 ∧
    interClassVariance
        (grayValues (cvZero.gaussianBlur5 (cvZero.saturationChannel
          yellowImage))) 5 ≤
      interClassVariance
        (grayValues (cvZero.gaussianBlur5 (cvZero.saturationChannel
          yellowImage)))
        (otsuThreshold
          (grayValues (cvZero.gaussianBlur5 (cvZero.saturationChannel
            yellowImage)))) :=
  ⟨by norm_num,
    (C10_mask_pipeline cvZero yellowImage).2.1 5 (by norm_num)⟩

end CSQA
